import Mathlib

set_option maxRecDepth 100000

/-!
Verification development for the goapi repository: the TSSC adaptive
symbol coder (TsscPointMetadata.go), the Guid HashSet container
(HashSet.go) and the metadata DataRow accessors (DataRow.go).

Machine integers are modelled by Nat/Int: `commandStats` entries are Go
bytes, so their increment is taken mod 256; the int32 size arithmetic of
`adaptCommands` is modelled in ℤ (exact for byte-bounded histograms,
which is enforced by hypothesis where it matters).  Panics and stream
exhaustion are modelled by `Option` / dedicated result variants.
-/

namespace Tssc

/-- Modelled from the spec (§4.1 BitStream, not part of the provided
source files): `writeBits value n` appends the low `n` bits of `value`
to the stream, most-significant bit first.  `bitsOf v n` is the list of
bits so appended. -/
def bitsOf (v : ℕ) : ℕ → List Bool
  | 0 => []
  | n + 1 => v.testBit n :: bitsOf v n

/-- Modelled from the spec (§4.1 BitStream): reading `n` bits
most-significant-first from a stream, returning the value and the rest
of the stream; `none` when the stream is exhausted. -/
def readBitsN : ℕ → List Bool → Option (ℕ × List Bool)
  | 0, l => some (0, l)
  | _ + 1, [] => none
  | n + 1, b :: l =>
      (readBitsN n l).map (fun p => ((cond b 1 0) * 2 ^ n + p.1, p.2))

/-- The selection state of the top-3 scan in `adaptCommands`:
`code1/count1` down to `code3/count3`, plus the running `total`. -/
structure Sel where
  code1 : ℕ
  count1 : ℕ
  code2 : ℕ
  count2 : ℕ
  code3 : ℕ
  count3 : ℕ
  total : ℕ
  deriving DecidableEq, Repr

/-- Initial values of the scan variables in `adaptCommands`
(`code1 = 0`, `code2 = 1`, `code3 = 2`, all counts and the total 0). -/
def selInit : Sel := ⟨0, 0, 1, 0, 2, 0, 0⟩

/-- One iteration of the top-3 scan loop of `adaptCommands` at index `i`
with histogram count `count`; fields in constructor order
`(code1, count1, code2, count2, code3, count3, total)`. -/
def selStep (s : Sel) (i : ℕ) (count : ℕ) : Sel :=
  if s.count3 < count then
    if s.count1 < count then
      ⟨i, count, s.code1, s.count1, s.code2, s.count2, s.total + count⟩
    else if s.count2 < count then
      ⟨s.code1, s.count1, i, count, s.code2, s.count2, s.total + count⟩
    else
      ⟨s.code1, s.count1, s.code2, s.count2, i, count, s.total + count⟩
  else
    ⟨s.code1, s.count1, s.code2, s.count2, s.code3, s.count3, s.total + count⟩

/-- The top-3 scan of `adaptCommands` run over indices `0 .. n-1` of the
histogram `h`. -/
def selScanAux (h : ℕ → ℕ) : ℕ → Sel
  | 0 => selInit
  | n + 1 => selStep (selScanAux h n) n (h n)

/-- A `[32]byte` histogram viewed as a function on all of ℕ (0 outside
the index range). -/
def statsFun (f : Fin 32 → ℕ) : ℕ → ℕ :=
  fun i => if h : i < 32 then f ⟨i, h⟩ else 0

/-- The complete top-3 scan of `adaptCommands` over a 32-entry
histogram. -/
def selScan (f : Fin 32 → ℕ) : Sel := selScanAux (statsFun f) 32

/-- The `min` helper of TsscPointMetadata.go (both strict branches plus
a fall-through returning the left value on equality). -/
def goMin (lv rv : ℤ) : ℤ :=
  if lv < rv then lv else if rv < lv then rv else lv

/-- `math.MaxInt32`, the initial value of `minSize` in
`adaptCommands`. -/
def maxInt32 : ℤ := 2147483647

/-- `mode1Size = total * 5` of `adaptCommands`. -/
def mode1Size (sel : Sel) : ℤ := (sel.total : ℤ) * 5

/-- `mode2Size = count1*1 + (total-count1)*6` of `adaptCommands`. -/
def mode2Size (sel : Sel) : ℤ :=
  (sel.count1 : ℤ) * 1 + ((sel.total : ℤ) - (sel.count1 : ℤ)) * 6

/-- `mode3Size = count1*1 + count2*2 + (total-count1-count2)*7` of
`adaptCommands`. -/
def mode3Size (sel : Sel) : ℤ :=
  (sel.count1 : ℤ) * 1 + (sel.count2 : ℤ) * 2 +
    ((sel.total : ℤ) - (sel.count1 : ℤ) - (sel.count2 : ℤ)) * 7

/-- `mode4Size = count1*1 + count2*2 + count3*3 +
(total-count1-count2-count3)*8` of `adaptCommands`. -/
def mode4Size (sel : Sel) : ℤ :=
  (sel.count1 : ℤ) * 1 + (sel.count2 : ℤ) * 2 + (sel.count3 : ℤ) * 3 +
    ((sel.total : ℤ) - (sel.count1 : ℤ) - (sel.count2 : ℤ) - (sel.count3 : ℤ)) * 8

/-- The `minSize` computed by `adaptCommands`: `math.MaxInt32` folded
with the four mode sizes through the `min` helper. -/
def minSizeOf (sel : Sel) : ℤ :=
  goMin (goMin (goMin (goMin maxInt32 (mode1Size sel)) (mode2Size sel)) (mode3Size sel))
    (mode4Size sel)

/-- The per-point state of the TSSC coder (struct `pointMetadata`).
The bit-stream callbacks are not part of the state; `WriteCode` and
`ReadCode` thread the stream explicitly. -/
structure PointState where
  PrevNextPointID1 : ℕ
  PrevStateFlags1 : ℕ
  PrevStateFlags2 : ℕ
  PrevValue1 : ℕ
  PrevValue2 : ℕ
  PrevValue3 : ℕ
  commandStats : Fin 32 → ℕ
  commandsSentSinceLastChange : ℕ
  mode : ℕ
  mode21 : ℕ
  mode31 : ℕ
  mode301 : ℕ
  mode41 : ℕ
  mode401 : ℕ
  mode4001 : ℕ
  startupMode : ℕ

/-- The `codeWords` symbol constants of TsscPointMetadata.go. -/
structure CodeWordsT where
  EndOfStream : ℕ
  PointIDXOR4 : ℕ
  PointIDXOR8 : ℕ
  PointIDXOR12 : ℕ
  PointIDXOR16 : ℕ
  PointIDXOR20 : ℕ
  PointIDXOR24 : ℕ
  PointIDXOR32 : ℕ
  TimeDelta1Forward : ℕ
  TimeDelta2Forward : ℕ
  TimeDelta3Forward : ℕ
  TimeDelta4Forward : ℕ
  TimeDelta1Reverse : ℕ
  TimeDelta2Reverse : ℕ
  TimeDelta3Reverse : ℕ
  TimeDelta4Reverse : ℕ
  Timestamp2 : ℕ
  TimeXOR7Bit : ℕ
  StateFlags2 : ℕ
  StateFlags7Bit32 : ℕ
  Value1 : ℕ
  Value2 : ℕ
  Value3 : ℕ
  ValueZero : ℕ
  ValueXOR4 : ℕ
  ValueXOR8 : ℕ
  ValueXOR12 : ℕ
  ValueXOR16 : ℕ
  ValueXOR20 : ℕ
  ValueXOR24 : ℕ
  ValueXOR28 : ℕ
  ValueXOR32 : ℕ

/-- The `codeWords` value of TsscPointMetadata.go: the 32-symbol
alphabet, numbered 0..31. -/
def codeWords : CodeWordsT :=
  { EndOfStream := 0
    PointIDXOR4 := 1
    PointIDXOR8 := 2
    PointIDXOR12 := 3
    PointIDXOR16 := 4
    PointIDXOR20 := 5
    PointIDXOR24 := 6
    PointIDXOR32 := 7
    TimeDelta1Forward := 8
    TimeDelta2Forward := 9
    TimeDelta3Forward := 10
    TimeDelta4Forward := 11
    TimeDelta1Reverse := 12
    TimeDelta2Reverse := 13
    TimeDelta3Reverse := 14
    TimeDelta4Reverse := 15
    Timestamp2 := 16
    TimeXOR7Bit := 17
    StateFlags2 := 18
    StateFlags7Bit32 := 19
    Value1 := 20
    Value2 := 21
    Value3 := 22
    ValueZero := 23
    ValueXOR4 := 24
    ValueXOR8 := 25
    ValueXOR12 := 26
    ValueXOR16 := 27
    ValueXOR20 := 28
    ValueXOR24 := 29
    ValueXOR28 := 30
    ValueXOR32 := 31 }

/-- `newPointMetadata`: mode 4 with hot slots `Value1`, `Value2`,
`Value3`; every other field is its Go zero value. -/
def newPointMetadata : PointState :=
  { PrevNextPointID1 := 0
    PrevStateFlags1 := 0
    PrevStateFlags2 := 0
    PrevValue1 := 0
    PrevValue2 := 0
    PrevValue3 := 0
    commandStats := fun _ => 0
    commandsSentSinceLastChange := 0
    mode := 4
    mode21 := 0
    mode31 := 0
    mode301 := 0
    mode41 := codeWords.Value1
    mode401 := codeWords.Value2
    mode4001 := codeWords.Value3
    startupMode := 0 }

/-- `pm.commandStats[code]++` (byte arithmetic, hence mod 256). -/
def updateStats (f : Fin 32 → ℕ) (c : Fin 32) : Fin 32 → ℕ :=
  fun j => if j = c then (f j + 1) % 256 else f j

/-- `adaptCommands`: scan the histogram for the top three symbols,
compute the four candidate mode sizes, install the mode of minimal size
(ties to the lower mode), zero the histogram, reset the counter.
`none` models the final `panic` branch. -/
def adaptCommands (s : PointState) : Option PointState :=
  let sel := selScan s.commandStats
  if minSizeOf sel = mode1Size sel then
    some { s with mode := 1,
                  commandStats := fun _ => 0, commandsSentSinceLastChange := 0 }
  else if minSizeOf sel = mode2Size sel then
    some { s with mode := 2, mode21 := sel.code1,
                  commandStats := fun _ => 0, commandsSentSinceLastChange := 0 }
  else if minSizeOf sel = mode3Size sel then
    some { s with mode := 3, mode31 := sel.code1, mode301 := sel.code2,
                  commandStats := fun _ => 0, commandsSentSinceLastChange := 0 }
  else if minSizeOf sel = mode4Size sel then
    some { s with mode := 4, mode41 := sel.code1, mode401 := sel.code2, mode4001 := sel.code3,
                  commandStats := fun _ => 0, commandsSentSinceLastChange := 0 }
  else
    none

/-- `updatedCodeStatistics`: bump the counter and the histogram entry,
then fire adaptation on the 5 / 20 / 100 schedule.  `none` models the
out-of-range histogram index panic and the `adaptCommands` panic. -/
def updatedCodeStatistics (s : PointState) (code : ℕ) : Option PointState :=
  if hc : code < 32 then
    let s1 : PointState :=
      { s with commandsSentSinceLastChange := s.commandsSentSinceLastChange + 1,
               commandStats := updateStats s.commandStats ⟨code, hc⟩ }
    if s1.startupMode = 0 ∧ 5 < s1.commandsSentSinceLastChange then
      adaptCommands { s1 with startupMode := s1.startupMode + 1 }
    else if s1.startupMode = 1 ∧ 20 < s1.commandsSentSinceLastChange then
      adaptCommands { s1 with startupMode := s1.startupMode + 1 }
    else if s1.startupMode = 2 ∧ 100 < s1.commandsSentSinceLastChange then
      adaptCommands s1
    else
      some s1
  else none

/-- The mode dispatch of `WriteCode`: the bits emitted for symbol `c`
in the current mode (`none` models the unknown-mode panic). -/
def writeBitsFor (s : PointState) (c : Fin 32) : Option (List Bool) :=
  if s.mode = 1 then some (bitsOf c.val 5)
  else if s.mode = 2 then
    some (if c.val = s.mode21 then bitsOf 1 1 else bitsOf c.val 6)
  else if s.mode = 3 then
    some (if c.val = s.mode31 then bitsOf 1 1
          else if c.val = s.mode301 then bitsOf 1 2
          else bitsOf c.val 7)
  else if s.mode = 4 then
    some (if c.val = s.mode41 then bitsOf 1 1
          else if c.val = s.mode401 then bitsOf 1 2
          else if c.val = s.mode4001 then bitsOf 1 3
          else bitsOf c.val 8)
  else none

/-- `WriteCode`: spell the symbol in the current mode (returning the
emitted bits), then update the statistics.  `none` models the panics
(unknown mode, or panic inside the statistics update). -/
def WriteCode (s : PointState) (c : Fin 32) : Option (PointState × List Bool) :=
  (writeBitsFor s c).bind fun bits =>
    (updatedCodeStatistics s c.val).map fun s' => (s', bits)

/-- The mode dispatch of `ReadCode`: the symbol read from the stream in
the current mode together with the unconsumed rest (`none` models the
unknown-mode panic and stream exhaustion). -/
def readStep (s : PointState) (stream : List Bool) : Option (ℕ × List Bool) :=
  if s.mode = 1 then readBitsN 5 stream
  else if s.mode = 2 then
    match stream with
    | [] => none
    | b :: r => if b then some (s.mode21, r) else readBitsN 5 r
  else if s.mode = 3 then
    match stream with
    | [] => none
    | b :: r =>
      if b then some (s.mode31, r)
      else match r with
        | [] => none
        | b2 :: r2 => if b2 then some (s.mode301, r2) else readBitsN 5 r2
  else if s.mode = 4 then
    match stream with
    | [] => none
    | b :: r =>
      if b then some (s.mode41, r)
      else match r with
        | [] => none
        | b2 :: r2 =>
          if b2 then some (s.mode401, r2)
          else match r2 with
            | [] => none
            | b3 :: r3 => if b3 then some (s.mode4001, r3) else readBitsN 5 r3
  else none

/-- `ReadCode`: read a symbol from the stream in the current mode, then
update the statistics.  Returns the new state, the symbol and the
unconsumed rest of the stream; `none` models the panics and stream
exhaustion. -/
def ReadCode (s : PointState) (stream : List Bool) : Option (PointState × ℕ × List Bool) :=
  (readStep s stream).bind fun p =>
    (updatedCodeStatistics s p.1).bind fun s' => some (s', p.1, p.2)

/-- One coder operation: an encode of a chosen symbol, or a decode from
a chosen bit stream. -/
inductive Op where
  | write (c : Fin 32) : Op
  | read (stream : List Bool) : Op

/-- The state transition of one `WriteCode` / `ReadCode` call. -/
def applyOp (s : PointState) : Op → Option PointState
  | Op.write c => (WriteCode s c).map Prod.fst
  | Op.read stream => (ReadCode s stream).map fun p => p.1

/-- A run of coder operations from a starting state. -/
def runOps (s : PointState) : List Op → Option PointState
  | [] => some s
  | op :: rest => (applyOp s op).bind fun s' => runOps s' rest

/-- Byte-boundedness of the histogram: in Go, `commandStats` has type
`[32]byte`, so every entry is at most 255. -/
def ByteStats (s : PointState) : Prop := ∀ i, s.commandStats i ≤ 255

/-- Loop invariant of the top-3 scan after processing histogram indices
`0 .. n-1`: the counts are sorted and sum below the total, the total is
the histogram prefix sum, every processed count is dominated by the
selected counts (excluding the higher-ranked codes), and every selected
slot with a positive count holds the least index realizing it. -/
def SelInv (h : ℕ → ℕ) (n : ℕ) (s : Sel) : Prop :=
  s.count2 ≤ s.count1 ∧ s.count3 ≤ s.count2 ∧
  s.count1 + s.count2 + s.count3 ≤ s.total ∧
  s.total = ∑ i in Finset.range n, h i ∧
  (∀ i < n, h i ≤ s.count1) ∧
  (∀ i < n, i ≠ s.code1 → h i ≤ s.count2) ∧
  (∀ i < n, i ≠ s.code1 → i ≠ s.code2 → h i ≤ s.count3) ∧
  (0 < s.count1 → s.code1 < n ∧ h s.code1 = s.count1 ∧
    ∀ i < s.code1, h i < s.count1) ∧
  (0 < s.count2 → s.code2 < n ∧ h s.code2 = s.count2 ∧ s.code2 ≠ s.code1 ∧
    ∀ i < s.code2, i ≠ s.code1 → h i < s.count2) ∧
  (0 < s.count3 → s.code3 < n ∧ h s.code3 = s.count3 ∧ s.code3 ≠ s.code1 ∧ s.code3 ≠ s.code2 ∧
    ∀ i < s.code3, i ≠ s.code1 → i ≠ s.code2 → h i < s.count3)

/-- Equality on the fields the spec lists for encoder/decoder agreement:
mode, the six hot-slot fields, the histogram, the counter and the
startup mode (the `Prev*` prediction fields may differ). -/
def CoderEq (a b : PointState) : Prop :=
  a.mode = b.mode ∧ a.mode21 = b.mode21 ∧ a.mode31 = b.mode31 ∧ a.mode301 = b.mode301 ∧
  a.mode41 = b.mode41 ∧ a.mode401 = b.mode401 ∧ a.mode4001 = b.mode4001 ∧
  a.commandStats = b.commandStats ∧
  a.commandsSentSinceLastChange = b.commandsSentSinceLastChange ∧
  a.startupMode = b.startupMode

/-- Decoding `bits` from state `t` succeeds, returns symbol `c` with the
stream fully consumed, and lands in a state coder-equal to `s'`. -/
def ReadMatches (t : PointState) (bits : List Bool) (s' : PointState) (c : ℕ) : Prop :=
  ∃ t', ReadCode t bits = some (t', c, []) ∧ CoderEq s' t'

/-- Transport of the six `Prev*` prediction fields of `t` onto `base`
(used to transfer coder results between coder-equal states). -/
def withPrevs (t base : PointState) : PointState :=
  { base with
      PrevNextPointID1 := t.PrevNextPointID1,
      PrevStateFlags1 := t.PrevStateFlags1,
      PrevStateFlags2 := t.PrevStateFlags2,
      PrevValue1 := t.PrevValue1,
      PrevValue2 := t.PrevValue2,
      PrevValue3 := t.PrevValue3 }

/-- Phase of a fresh point after `n` coded symbols: `startupMode` 0 for
the first 5 symbols, 1 up to symbol 26, and 2 from symbol 27 on. -/
def PhaseInv (n : ℕ) (s : PointState) : Prop :=
  (s.startupMode = 0 ∧ s.commandsSentSinceLastChange = n ∧ n ≤ 5) ∨
  (s.startupMode = 1 ∧ s.commandsSentSinceLastChange + 6 = n ∧ n ≤ 26) ∨
  (s.startupMode = 2 ∧ 27 ≤ n)

/-- The adaptation trigger of `updatedCodeStatistics` as the source has
it: fires at `startupMode` 0, 1 or 2 when the just-incremented counter
exceeds 5, 20 or 100 respectively (no branch exists for
`startupMode ≥ 3`). -/
def FiresAdapt (s : PointState) : Prop :=
  (s.startupMode = 0 ∧ 5 < s.commandsSentSinceLastChange + 1) ∨
  (s.startupMode = 1 ∧ 20 < s.commandsSentSinceLastChange + 1) ∨
  (s.startupMode = 2 ∧ 100 < s.commandsSentSinceLastChange + 1)

/-- Post-condition of one `updatedCodeStatistics` call (the amended
adaptation schedule): the call succeeds; when adaptation fires the
counter and the histogram are reset and a valid mode is installed; when
it does not fire the counter is incremented and exactly the coded
symbol's histogram entry is bumped (byte arithmetic); `startupMode` is
bumped only from 0 (counter > 5) and from 1 (counter > 20) — at
`startupMode = 2` adaptation runs without bumping, and at
`startupMode ≥ 3` nothing fires at all. -/
def UpdSpec (s : PointState) (code : Fin 32) : Prop :=
  ∃ s', updatedCodeStatistics s code.val = some s' ∧
    (FiresAdapt s → s'.commandsSentSinceLastChange = 0 ∧ (∀ i, s'.commandStats i = 0) ∧
      (s'.mode = 1 ∨ s'.mode = 2 ∨ s'.mode = 3 ∨ s'.mode = 4)) ∧
    (¬ FiresAdapt s → s'.commandsSentSinceLastChange = s.commandsSentSinceLastChange + 1 ∧
      s'.commandStats = updateStats s.commandStats code ∧ s'.mode = s.mode) ∧
    s'.startupMode =
      (if s.startupMode = 0 ∧ 5 < s.commandsSentSinceLastChange + 1 then 1
       else if s.startupMode = 1 ∧ 20 < s.commandsSentSinceLastChange + 1 then 2
       else s.startupMode)

/-- The amended monotone-startup property: `startupMode` never decreases
across a coder operation, and on any run from a fresh state it stays in
`{0, 1, 2}`, reaching 2 from the 27th coded symbol on. -/
def StartupSpec : Prop :=
  (∀ s op s', applyOp s op = some s' → s.startupMode ≤ s'.startupMode) ∧
  (∀ ops s', runOps newPointMetadata ops = some s' →
    s'.startupMode ≤ 2 ∧ (27 ≤ ops.length → s'.startupMode = 2))

/-- Post-condition of one successful `adaptCommands` call: the selected
counts are sorted and dominate the histogram (rank by rank, excluding
the higher-ranked codes), the total is the histogram sum, the counter
and histogram are reset, and the installed mode minimizes the four mode
sizes with ties resolved to the lower mode number, installing its hot
slots from the scan's codes. -/
def AdaptSpec (s s' : PointState) : Prop :=
  (selScan s.commandStats).count2 ≤ (selScan s.commandStats).count1 ∧
  (selScan s.commandStats).count3 ≤ (selScan s.commandStats).count2 ∧
  (∀ i : Fin 32, s.commandStats i ≤ (selScan s.commandStats).count1) ∧
  (∀ i : Fin 32, i.val ≠ (selScan s.commandStats).code1 →
    s.commandStats i ≤ (selScan s.commandStats).count2) ∧
  (∀ i : Fin 32, i.val ≠ (selScan s.commandStats).code1 →
    i.val ≠ (selScan s.commandStats).code2 →
    s.commandStats i ≤ (selScan s.commandStats).count3) ∧
  (selScan s.commandStats).total = ∑ i, s.commandStats i ∧
  s'.commandsSentSinceLastChange = 0 ∧
  (∀ i, s'.commandStats i = 0) ∧
  ((s'.mode = 1 ∧
      mode1Size (selScan s.commandStats) ≤ mode2Size (selScan s.commandStats) ∧
      mode1Size (selScan s.commandStats) ≤ mode3Size (selScan s.commandStats) ∧
      mode1Size (selScan s.commandStats) ≤ mode4Size (selScan s.commandStats)) ∨
   (s'.mode = 2 ∧ s'.mode21 = (selScan s.commandStats).code1 ∧
      mode2Size (selScan s.commandStats) < mode1Size (selScan s.commandStats) ∧
      mode2Size (selScan s.commandStats) ≤ mode3Size (selScan s.commandStats) ∧
      mode2Size (selScan s.commandStats) ≤ mode4Size (selScan s.commandStats)) ∨
   (s'.mode = 3 ∧ s'.mode31 = (selScan s.commandStats).code1 ∧
      s'.mode301 = (selScan s.commandStats).code2 ∧
      mode3Size (selScan s.commandStats) < mode1Size (selScan s.commandStats) ∧
      mode3Size (selScan s.commandStats) < mode2Size (selScan s.commandStats) ∧
      mode3Size (selScan s.commandStats) ≤ mode4Size (selScan s.commandStats)) ∨
   (s'.mode = 4 ∧ s'.mode41 = (selScan s.commandStats).code1 ∧
      s'.mode401 = (selScan s.commandStats).code2 ∧
      s'.mode4001 = (selScan s.commandStats).code3 ∧
      mode4Size (selScan s.commandStats) < mode1Size (selScan s.commandStats) ∧
      mode4Size (selScan s.commandStats) < mode2Size (selScan s.commandStats) ∧
      mode4Size (selScan s.commandStats) < mode3Size (selScan s.commandStats)))

/-- The amended top-3 selection property: every selected slot whose
count is positive holds the lexicographically-least count-maximal index
among the candidates that exclude the higher-ranked codes; and whenever
three distinct symbols have positive counts all three slots are so
characterized (zero-count slots are scan leftovers and are not). -/
def SelSpec (f : Fin 32 → ℕ) : Prop :=
  (0 < (selScan f).count1 → (selScan f).code1 < 32 ∧
    statsFun f (selScan f).code1 = (selScan f).count1 ∧
    (∀ i < 32, statsFun f i ≤ (selScan f).count1) ∧
    (∀ i < (selScan f).code1, statsFun f i < (selScan f).count1)) ∧
  (0 < (selScan f).count2 → (selScan f).code2 < 32 ∧
    (selScan f).code2 ≠ (selScan f).code1 ∧
    statsFun f (selScan f).code2 = (selScan f).count2 ∧
    (∀ i < 32, i ≠ (selScan f).code1 → statsFun f i ≤ (selScan f).count2) ∧
    (∀ i < (selScan f).code2, i ≠ (selScan f).code1 → statsFun f i < (selScan f).count2)) ∧
  (0 < (selScan f).count3 → (selScan f).code3 < 32 ∧
    (selScan f).code3 ≠ (selScan f).code1 ∧ (selScan f).code3 ≠ (selScan f).code2 ∧
    statsFun f (selScan f).code3 = (selScan f).count3 ∧
    (∀ i < 32, i ≠ (selScan f).code1 → i ≠ (selScan f).code2 →
      statsFun f i ≤ (selScan f).count3) ∧
    (∀ i < (selScan f).code3, i ≠ (selScan f).code1 → i ≠ (selScan f).code2 →
      statsFun f i < (selScan f).count3)) ∧
  (∀ i j k, i < 32 → j < 32 → k < 32 → i ≠ j → i ≠ k → j ≠ k →
    0 < statsFun f i → 0 < statsFun f j → 0 < statsFun f k → 0 < (selScan f).count3)

/-- Per the spec's words (§4.2 Top-3 selection): the count-maximal
symbol of a candidate list, ties resolved to the earliest (hence
lowest-indexed) candidate. -/
def bestSymbol (f : Fin 32 → ℕ) (cur : ℕ) : List ℕ → ℕ
  | [] => cur
  | i :: rest => bestSymbol f (if statsFun f cur < statsFun f i then i else cur) rest

/-- Per the spec's words: the least count-maximal index in a candidate
list (0 for the empty list). -/
def leastMaxIn (f : Fin 32 → ℕ) : List ℕ → ℕ
  | [] => 0
  | i :: rest => bestSymbol f i rest

/-- Per the spec's words: the claimed top-3 selection — rank by rank the
lexicographically-least index choice among count-maximal candidates,
with higher-ranked choices excluded. -/
def specTop3 (f : Fin 32 → ℕ) : ℕ × ℕ × ℕ :=
  let a := leastMaxIn f (List.range 32)
  let b := leastMaxIn f ((List.range 32).filter (fun i => i != a))
  let c := leastMaxIn f ((List.range 32).filter (fun i => i != a && i != b))
  (a, b, c)

/-- Spelling of `WriteCode` per mode and hot-slot case, exactly as the
spec's prefix templates describe it. -/
def WriteSpellSpec (s : PointState) (c : Fin 32) : Prop :=
  (s.mode = 1 → (WriteCode s c).map Prod.snd = some (bitsOf c.val 5)) ∧
  (s.mode = 2 → c.val = s.mode21 → (WriteCode s c).map Prod.snd = some [true]) ∧
  (s.mode = 2 → c.val ≠ s.mode21 →
    (WriteCode s c).map Prod.snd = some (false :: bitsOf c.val 5)) ∧
  (s.mode = 3 → c.val = s.mode31 → (WriteCode s c).map Prod.snd = some [true]) ∧
  (s.mode = 3 → c.val ≠ s.mode31 → c.val = s.mode301 →
    (WriteCode s c).map Prod.snd = some [false, true]) ∧
  (s.mode = 3 → c.val ≠ s.mode31 → c.val ≠ s.mode301 →
    (WriteCode s c).map Prod.snd = some (false :: false :: bitsOf c.val 5)) ∧
  (s.mode = 4 → c.val = s.mode41 → (WriteCode s c).map Prod.snd = some [true]) ∧
  (s.mode = 4 → c.val ≠ s.mode41 → c.val = s.mode401 →
    (WriteCode s c).map Prod.snd = some [false, true]) ∧
  (s.mode = 4 → c.val ≠ s.mode41 → c.val ≠ s.mode401 → c.val = s.mode4001 →
    (WriteCode s c).map Prod.snd = some [false, false, true]) ∧
  (s.mode = 4 → c.val ≠ s.mode41 → c.val ≠ s.mode401 → c.val ≠ s.mode4001 →
    (WriteCode s c).map Prod.snd = some (false :: false :: false :: bitsOf c.val 5))

/-- The `minSize` of `adaptCommands` equals one of the four mode sizes,
and the call succeeds (the final panic branch is unreachable). -/
def AdaptTotalSpec (s : PointState) : Prop :=
  (minSizeOf (selScan s.commandStats) = mode1Size (selScan s.commandStats) ∨
   minSizeOf (selScan s.commandStats) = mode2Size (selScan s.commandStats) ∨
   minSizeOf (selScan s.commandStats) = mode3Size (selScan s.commandStats) ∨
   minSizeOf (selScan s.commandStats) = mode4Size (selScan s.commandStats)) ∧
  ∃ s', adaptCommands s = some s'

/-- Symbol 5 (`PointIDXOR20`), used as a concrete cold-path symbol. -/
def fin5 : Fin 32 := ⟨5, by decide⟩

/-- Symbol 20 (`Value1`), the first hot slot of the initial mode. -/
def fin20 : Fin 32 := ⟨20, by decide⟩

/-- A decoder-side twin of the fresh state differing only in a `Prev*`
prediction field. -/
def coderTwin : PointState := { newPointMetadata with PrevValue1 := 7 }

/-- The encoder state after coding symbol 5 once from fresh. -/
def c4Post : PointState :=
  { newPointMetadata with
      commandsSentSinceLastChange := 1,
      commandStats := updateStats newPointMetadata.commandStats fin5 }

/-- The fresh state after one adaptation of its all-zero histogram
(mode 1 wins every tie at size 0). -/
def adaptFreshPost : PointState :=
  { newPointMetadata with
      mode := 1, commandStats := fun _ => 0, commandsSentSinceLastChange := 0 }

/-- A state at `startupMode = 2` whose counter is about to cross 100. -/
def cexStartup2 : PointState :=
  { newPointMetadata with startupMode := 2, commandsSentSinceLastChange := 100 }

/-- A state at `startupMode = 3` with the counter far beyond 100. -/
def cexStartup3 : PointState :=
  { newPointMetadata with startupMode := 3, commandsSentSinceLastChange := 200 }

/-- The histogram holding six hits of symbol 0 and nothing else (the
histogram produced by coding symbol 0 six times from fresh). -/
def histOneHot : Fin 32 → ℕ := fun i => if i.val = 0 then 6 else 0

/-- A histogram with three distinct positive symbols. -/
def histThree : Fin 32 → ℕ :=
  fun i => if i.val = 0 then 1 else if i.val = 1 then 2 else if i.val = 2 then 3 else 0

end Tssc

namespace GuidSet

/-- `HashSet.Contains` of HashSet.go (Guids abstracted to ℕ). -/
def Contains (hs : Finset ℕ) (item : ℕ) : Bool := decide (item ∈ hs)

/-- `HashSet.IsEmpty` of HashSet.go: true when the length is zero. -/
def IsEmpty (hs : Finset ℕ) : Bool := decide (hs.card = 0)

/-- `HashSet.IsProperSupersetOf` of HashSet.go, branch for branch: the
empty receiver returns true immediately, then the empty slice returns
true, then a slice at least as long as the set returns false, else
membership of every slice element is checked. -/
def IsProperSupersetOf (hs : Finset ℕ) (other : List ℕ) : Bool :=
  if IsEmpty hs then true
  else if other.length = 0 then true
  else if hs.card ≤ other.length then false
  else other.all (fun v => Contains hs v)

end GuidSet

namespace Metadata

/-- The fields of DataColumn that DataRow.Value consults: the declared
data type and the computed flag.  Modelled from the spec: DataColumn.go
itself is not among the provided sources. -/
structure DataColumn where
  dtype : ℤ
  computed : Bool

/-- A DataRow with its parent table's column list and its stored values
(`Option` for Go's nillable `interface\x7b\x7d` cells). -/
structure DataRow (V : Type) where
  columns : List DataColumn
  values : List (Option V)

/-- Result of `validateColumnType`: a column-not-found error, a panic,
or the validated column. -/
inductive ColCheck where
  | errRes : ColCheck
  | panicRes : ColCheck
  | okRes : DataColumn → ColCheck

/-- Result of a DataRow read: an error, a panic, or a (nillable)
value. -/
inductive RowRead (V : Type) where
  | errRes : RowRead V
  | panicRes : RowRead V
  | okRes : Option V → RowRead V
  deriving DecidableEq

/-- `DataRow.validateColumnType`: resolve the column (error when out of
range), panic on a type mismatch against a non-negative target type,
panic when assigning (not reading) a computed column.  Modelled from the
spec where it calls the absent DataTable.Column accessor (list
lookup). -/
def validateColumnType {V : Type} (dr : DataRow V) (columnIndex : ℕ) (targetType : ℤ)
    (read : Bool) : ColCheck :=
  match dr.columns.get? columnIndex with
  | none => ColCheck.errRes
  | some col =>
    if -1 < targetType ∧ col.dtype ≠ targetType then ColCheck.panicRes
    else if read = false ∧ col.computed = true then ColCheck.panicRes
    else ColCheck.okRes col

/-- `DataRow.getComputedValue`: the expression evaluator is commented
out in the source; the function returns `(nil, nil)` — no value and no
error. -/
def getComputedValue {V : Type} (_dr : DataRow V) (_col : DataColumn) : RowRead V :=
  RowRead.okRes none

/-- `DataRow.Value`: validate the column with no target type, fall back
to `getComputedValue` for computed columns, otherwise return the stored
cell. -/
def Value {V : Type} (dr : DataRow V) (columnIndex : ℕ) : RowRead V :=
  match validateColumnType dr columnIndex (-1) true with
  | ColCheck.errRes => RowRead.errRes
  | ColCheck.panicRes => RowRead.panicRes
  | ColCheck.okRes col =>
    if col.computed then getComputedValue dr col
    else
      match dr.values.get? columnIndex with
      | some v => RowRead.okRes v
      | none => RowRead.panicRes

/-- A computed column of some declared type. -/
def compColumn : DataColumn := ⟨3, true⟩

/-- A one-column row over that computed column, with a stored value that
must be ignored. -/
def sampleRow : DataRow ℕ := ⟨[compColumn], [some 42]⟩

end Metadata

namespace Tssc

theorem selInv_init (h : ℕ → ℕ) : SelInv h 0 selInit := by
  unfold SelInv selInit
  dsimp only
  refine ⟨le_refl 0, le_refl 0, by simp, by simp, ?_, ?_, ?_, ?_, ?_, ?_⟩
  · intro i hi
    omega
  · intro i hi _
    omega
  · intro i hi _ _
    omega
  · intro hp
    omega
  · intro hp
    omega
  · intro hp
    omega

theorem selInv_step (h : ℕ → ℕ) (n : ℕ) (s : Sel) (hI : SelInv h n s) :
    SelInv h (n + 1) (selStep s n (h n)) := by
  obtain ⟨h21, h32, hsum, htot, hd1, hd2, hd3, hm1, hm2, hm3⟩ := hI
  have htot' : s.total + h n = ∑ i in Finset.range (n + 1), h i := by
    rw [Finset.sum_range_succ, htot]
  unfold selStep SelInv
  by_cases hA : s.count3 < h n
  · rw [if_pos hA]
    by_cases hB : s.count1 < h n
    · rw [if_pos hB]
      dsimp only
      refine ⟨hB.le, h21, by omega, htot', ?_, ?_, ?_, ?_, ?_, ?_⟩
      · intro i hi
        rcases Nat.lt_succ_iff_lt_or_eq.mp hi with hlt | rfl
        · exact (hd1 i hlt).trans hB.le
        · exact le_refl _
      · intro i hi hne
        exact hd1 i (by omega)
      · intro i hi hne hne2
        exact hd2 i (by omega) hne2
      · intro _
        exact ⟨Nat.lt_succ_self n, rfl, fun i hi => lt_of_le_of_lt (hd1 i hi) hB⟩
      · intro hp
        obtain ⟨hcn, hch, hleast⟩ := hm1 hp
        exact ⟨by omega, hch, by omega, fun i hi _ => hleast i hi⟩
      · intro hp
        obtain ⟨hcn, hch, hne, hleast⟩ := hm2 hp
        exact ⟨by omega, hch, by omega, hne, fun i hi _ hne2 => hleast i hi hne2⟩
    · rw [if_neg hB]
      have hp1 : 0 < s.count1 := by omega
      obtain ⟨hc1n, hc1h, hc1least⟩ := hm1 hp1
      by_cases hC : s.count2 < h n
      · rw [if_pos hC]
        dsimp only
        refine ⟨by omega, hC.le, by omega, htot', ?_, ?_, ?_, ?_, ?_, ?_⟩
        · intro i hi
          rcases Nat.lt_succ_iff_lt_or_eq.mp hi with hlt | rfl
          · exact hd1 i hlt
          · omega
        · intro i hi hne
          rcases Nat.lt_succ_iff_lt_or_eq.mp hi with hlt | rfl
          · exact (hd2 i hlt hne).trans hC.le
          · exact le_refl _
        · intro i hi hne hnen
          exact hd2 i (by omega) hne
        · intro _
          exact ⟨by omega, hc1h, hc1least⟩
        · intro _
          refine ⟨Nat.lt_succ_self n, rfl, by omega, ?_⟩
          intro i hi hne
          exact lt_of_le_of_lt (hd2 i hi hne) hC
        · intro hp
          obtain ⟨hcn, hch, hne, hleast⟩ := hm2 hp
          exact ⟨by omega, hch, hne, by omega, fun i hi hne1 _ => hleast i hi hne1⟩
      · rw [if_neg hC]
        dsimp only
        have hp2 : 0 < s.count2 := by omega
        obtain ⟨hc2n, hc2h, hc2ne, hc2least⟩ := hm2 hp2
        refine ⟨h21, by omega, by omega, htot', ?_, ?_, ?_, ?_, ?_, ?_⟩
        · intro i hi
          rcases Nat.lt_succ_iff_lt_or_eq.mp hi with hlt | rfl
          · exact hd1 i hlt
          · omega
        · intro i hi hne
          rcases Nat.lt_succ_iff_lt_or_eq.mp hi with hlt | rfl
          · exact hd2 i hlt hne
          · omega
        · intro i hi hne hne2
          rcases Nat.lt_succ_iff_lt_or_eq.mp hi with hlt | rfl
          · exact (hd3 i hlt hne hne2).trans hA.le
          · exact le_refl _
        · intro _
          exact ⟨by omega, hc1h, hc1least⟩
        · intro _
          exact ⟨by omega, hc2h, hc2ne, hc2least⟩
        · intro _
          refine ⟨Nat.lt_succ_self n, rfl, by omega, by omega, ?_⟩
          intro i hi hne1 hne2
          exact lt_of_le_of_lt (hd3 i hi hne1 hne2) hA
  · rw [if_neg hA]
    dsimp only
    refine ⟨h21, h32, by omega, htot', ?_, ?_, ?_, ?_, ?_, ?_⟩
    · intro i hi
      rcases Nat.lt_succ_iff_lt_or_eq.mp hi with hlt | rfl
      · exact hd1 i hlt
      · omega
    · intro i hi hne
      rcases Nat.lt_succ_iff_lt_or_eq.mp hi with hlt | rfl
      · exact hd2 i hlt hne
      · omega
    · intro i hi hne hne2
      rcases Nat.lt_succ_iff_lt_or_eq.mp hi with hlt | rfl
      · exact hd3 i hlt hne hne2
      · omega
    · intro hp
      obtain ⟨hcn, hch, hleast⟩ := hm1 hp
      exact ⟨by omega, hch, hleast⟩
    · intro hp
      obtain ⟨hcn, hch, hne, hleast⟩ := hm2 hp
      exact ⟨by omega, hch, hne, hleast⟩
    · intro hp
      obtain ⟨hcn, hch, hne1, hne2, hleast⟩ := hm3 hp
      exact ⟨by omega, hch, hne1, hne2, hleast⟩

theorem selInv_scanAux (h : ℕ → ℕ) : ∀ n, SelInv h n (selScanAux h n)
  | 0 => selInv_init h
  | n + 1 => selInv_step h n (selScanAux h n) (selInv_scanAux h n)

theorem selScan_inv (f : Fin 32 → ℕ) : SelInv (statsFun f) 32 (selScan f) :=
  selInv_scanAux (statsFun f) 32

theorem statsFun_coe (f : Fin 32 → ℕ) (i : Fin 32) : statsFun f i.val = f i := by
  unfold statsFun
  rw [dif_pos i.isLt]

theorem selScan_total (f : Fin 32 → ℕ) : (selScan f).total = ∑ i, f i := by
  have h := (selScan_inv f).2.2.2.1
  rw [h, ← Fin.sum_univ_eq_sum_range]
  exact Finset.sum_congr rfl (fun i _ => statsFun_coe f i)

theorem selScan_total_le (f : Fin 32 → ℕ) (hb : ∀ i, f i ≤ 255) :
    (selScan f).total ≤ 8160 := by
  rw [selScan_total]
  calc ∑ i, f i ≤ ∑ _i : Fin 32, 255 := Finset.sum_le_sum (fun i _ => hb i)
  _ = 8160 := by simp

theorem goMin_eq_min (a b : ℤ) : goMin a b = min a b := by
  unfold goMin
  split_ifs <;> omega

theorem min_eq_or (a b : ℤ) : min a b = a ∨ min a b = b := by
  rcases le_total a b with h | h
  · exact Or.inl (min_eq_left h)
  · exact Or.inr (min_eq_right h)

theorem minSizeOf_le (sel : Sel) :
    minSizeOf sel ≤ mode1Size sel ∧ minSizeOf sel ≤ mode2Size sel ∧
    minSizeOf sel ≤ mode3Size sel ∧ minSizeOf sel ≤ mode4Size sel := by
  unfold minSizeOf
  simp only [goMin_eq_min]
  refine ⟨?_, ?_, ?_, ?_⟩
  · exact le_trans (min_le_left _ _)
      (le_trans (min_le_left _ _) (le_trans (min_le_left _ _) (min_le_right _ _)))
  · exact le_trans (min_le_left _ _) (le_trans (min_le_left _ _) (min_le_right _ _))
  · exact le_trans (min_le_left _ _) (min_le_right _ _)
  · exact min_le_right _ _

theorem minSizeOf_cases (sel : Sel) (h1 : mode1Size sel < maxInt32) :
    minSizeOf sel = mode1Size sel ∨ minSizeOf sel = mode2Size sel ∨
    minSizeOf sel = mode3Size sel ∨ minSizeOf sel = mode4Size sel := by
  unfold minSizeOf
  simp only [goMin_eq_min]
  have e1 : min maxInt32 (mode1Size sel) = mode1Size sel := min_eq_right h1.le
  rcases min_eq_or (min (min (min maxInt32 (mode1Size sel)) (mode2Size sel)) (mode3Size sel))
      (mode4Size sel) with h4 | h4
  · rw [h4]
    rcases min_eq_or (min (min maxInt32 (mode1Size sel)) (mode2Size sel)) (mode3Size sel) with
      h3 | h3
    · rw [h3]
      rcases min_eq_or (min maxInt32 (mode1Size sel)) (mode2Size sel) with h2 | h2
      · rw [h2, e1]
        exact Or.inl rfl
      · rw [h2]
        exact Or.inr (Or.inl rfl)
    · rw [h3]
      exact Or.inr (Or.inr (Or.inl rfl))
  · rw [h4]
    exact Or.inr (Or.inr (Or.inr rfl))

theorem adaptCommands_reset (s s' : PointState) (h : adaptCommands s = some s') :
    s'.commandsSentSinceLastChange = 0 ∧ (∀ i, s'.commandStats i = 0) ∧
    s'.startupMode = s.startupMode ∧
    (s'.mode = 1 ∨ s'.mode = 2 ∨ s'.mode = 3 ∨ s'.mode = 4) := by
  simp only [adaptCommands] at h
  split_ifs at h <;> injection h with h <;> subst h <;>
    exact ⟨rfl, fun i => rfl, rfl, by simp⟩

theorem mode1Size_lt_max (s : PointState) (hb : ByteStats s) :
    mode1Size (selScan s.commandStats) < maxInt32 := by
  have ht := selScan_total_le s.commandStats hb
  unfold mode1Size maxInt32
  omega

theorem adaptCommands_isSome (s : PointState) (hb : ByteStats s) :
    ∃ s', adaptCommands s = some s' := by
  have hc := minSizeOf_cases (selScan s.commandStats) (mode1Size_lt_max s hb)
  simp only [adaptCommands]
  split_ifs with e1 e2 e3 e4
  · exact ⟨_, rfl⟩
  · exact ⟨_, rfl⟩
  · exact ⟨_, rfl⟩
  · exact ⟨_, rfl⟩
  · rcases hc with h | h | h | h
    · exact absurd h e1
    · exact absurd h e2
    · exact absurd h e3
    · exact absurd h e4

theorem byteStats_fresh : ByteStats newPointMetadata := fun _ => by
  norm_num [newPointMetadata]

/-- C8: for every byte-valued histogram the minimum of the four mode
sizes computed by `adaptCommands` equals one of them, so the final
`panic` branch (Publisher/Subscriber Coding Error) is unreachable and
the call returns a state. -/
theorem c8_adapt_no_panic (s : PointState) (hb : ByteStats s) : AdaptTotalSpec s :=
  ⟨minSizeOf_cases (selScan s.commandStats) (mode1Size_lt_max s hb),
   adaptCommands_isSome s hb⟩

/-- C8 witness: the fresh state's histogram is byte-valued and its
adaptation succeeds. -/
theorem c8_adapt_no_panic_witness : AdaptTotalSpec newPointMetadata :=
  c8_adapt_no_panic newPointMetadata byteStats_fresh

/-- C3: at every successful adaptation of a byte-valued histogram, the
scanned counts are the sorted top-3 (they dominate every entry rank by
rank), the histogram is zeroed, the counter reset, and the installed
mode minimizes the four mode sizes with ties to the lower mode number,
its hot slots taken from the scan's codes. -/
theorem c3_adapt_optimal (s s' : PointState) (_hb : ByteStats s)
    (h : adaptCommands s = some s') : AdaptSpec s s' := by
  obtain ⟨h21, h32, hsum, htot, hd1, hd2, hd3, hm1, hm2, hm3⟩ := selScan_inv s.commandStats
  have hreset := adaptCommands_reset s s' h
  have hle := minSizeOf_le (selScan s.commandStats)
  obtain ⟨hle1, hle2, hle3, hle4⟩ := hle
  unfold AdaptSpec
  refine ⟨h21, h32, ?_, ?_, ?_, selScan_total s.commandStats, hreset.1, hreset.2.1, ?_⟩
  · intro i
    have hx := hd1 i.val i.isLt
    rwa [statsFun_coe] at hx
  · intro i hne
    have hx := hd2 i.val i.isLt hne
    rwa [statsFun_coe] at hx
  · intro i hne1 hne2
    have hx := hd3 i.val i.isLt hne1 hne2
    rwa [statsFun_coe] at hx
  · simp only [adaptCommands] at h
    split_ifs at h with e1 e2 e3 e4
    · injection h with h
      subst h
      refine Or.inl ⟨rfl, ?_, ?_, ?_⟩ <;> omega
    · injection h with h
      subst h
      refine Or.inr (Or.inl ⟨rfl, rfl, ?_, ?_, ?_⟩) <;> omega
    · injection h with h
      subst h
      refine Or.inr (Or.inr (Or.inl ⟨rfl, rfl, rfl, ?_, ?_, ?_⟩)) <;> omega
    · injection h with h
      subst h
      refine Or.inr (Or.inr (Or.inr ⟨rfl, rfl, rfl, rfl, ?_, ?_, ?_⟩)) <;> omega

/-- C3 witness: adapting the fresh state's all-zero histogram installs
mode 1 (every size is 0 and the tie resolves downward). -/
theorem c3_adapt_optimal_witness : AdaptSpec newPointMetadata adaptFreshPost :=
  c3_adapt_optimal newPointMetadata adaptFreshPost byteStats_fresh (by rfl)

theorem updateStats_byte (f : Fin 32 → ℕ) (c : Fin 32) (hb : ∀ i, f i ≤ 255) :
    ∀ i, updateStats f c i ≤ 255 := by
  intro i
  unfold updateStats
  split_ifs
  · have hmod := Nat.mod_lt (f i + 1) (show (0:ℕ) < 256 by omega)
    omega
  · exact hb i

theorem updStats_isSome (s : PointState) (code : ℕ) (hc : code < 32) (hb : ByteStats s) :
    ∃ s', updatedCodeStatistics s code = some s' := by
  have hb1 : ∀ i, updateStats s.commandStats ⟨code, hc⟩ i ≤ 255 :=
    updateStats_byte s.commandStats ⟨code, hc⟩ hb
  simp only [updatedCodeStatistics]
  rw [dif_pos hc]
  split_ifs with f0 f1 f2
  · exact adaptCommands_isSome _ (fun i => hb1 i)
  · exact adaptCommands_isSome _ (fun i => hb1 i)
  · exact adaptCommands_isSome _ (fun i => hb1 i)
  · exact ⟨_, rfl⟩

theorem updStats_some_spec (s : PointState) (code : ℕ) (s' : PointState)
    (h : updatedCodeStatistics s code = some s') :
    (FiresAdapt s → s'.commandsSentSinceLastChange = 0 ∧ (∀ i, s'.commandStats i = 0) ∧
      (s'.mode = 1 ∨ s'.mode = 2 ∨ s'.mode = 3 ∨ s'.mode = 4)) ∧
    (¬ FiresAdapt s → s'.commandsSentSinceLastChange = s.commandsSentSinceLastChange + 1 ∧
      s'.mode = s.mode ∧ s'.startupMode = s.startupMode ∧
      ∃ hcc : code < 32, s'.commandStats = updateStats s.commandStats ⟨code, hcc⟩) ∧
    ((s.startupMode = 0 ∧ 5 < s.commandsSentSinceLastChange + 1) → s'.startupMode = 1) ∧
    ((s.startupMode = 1 ∧ 20 < s.commandsSentSinceLastChange + 1) → s'.startupMode = 2) ∧
    (s.startupMode = 2 → s'.startupMode = 2) := by
  by_cases hc : code < 32
  · simp only [updatedCodeStatistics] at h
    rw [dif_pos hc] at h
    split_ifs at h with f0 f1 f2
    · have reset := adaptCommands_reset _ _ h
      have hst : s'.startupMode = s.startupMode + 1 := reset.2.2.1
      refine ⟨fun _ => ⟨reset.1, reset.2.1, reset.2.2.2⟩, ?_, ?_, ?_, ?_⟩
      · intro hnf
        exact absurd (Or.inl f0) hnf
      · intro _
        omega
      · intro hc1
        omega
      · intro h2
        omega
    · have reset := adaptCommands_reset _ _ h
      have hst : s'.startupMode = s.startupMode + 1 := reset.2.2.1
      refine ⟨fun _ => ⟨reset.1, reset.2.1, reset.2.2.2⟩, ?_, ?_, ?_, ?_⟩
      · intro hnf
        exact absurd (Or.inr (Or.inl f1)) hnf
      · intro hc0
        omega
      · intro _
        omega
      · intro h2
        omega
    · have reset := adaptCommands_reset _ _ h
      have hst : s'.startupMode = s.startupMode := reset.2.2.1
      refine ⟨fun _ => ⟨reset.1, reset.2.1, reset.2.2.2⟩, ?_, ?_, ?_, ?_⟩
      · intro hnf
        exact absurd (Or.inr (Or.inr f2)) hnf
      · intro hc0
        omega
      · intro hc1
        omega
      · intro _
        omega
    · injection h with h
      subst h
      refine ⟨?_, ?_, ?_, ?_, ?_⟩
      · rintro (f | f | f)
        · exact absurd f f0
        · exact absurd f f1
        · exact absurd f f2
      · intro _
        exact ⟨rfl, rfl, rfl, hc, rfl⟩
      · intro hc0
        exact absurd hc0 f0
      · intro hc1
        exact absurd hc1 f1
      · intro h2
        exact h2
  · simp only [updatedCodeStatistics] at h
    rw [dif_neg hc] at h
    exact Option.noConfusion h

theorem updStats_startup_mono (s : PointState) (code : ℕ) (s' : PointState)
    (h : updatedCodeStatistics s code = some s') : s.startupMode ≤ s'.startupMode := by
  have hs := updStats_some_spec s code s' h
  by_cases hf : FiresAdapt s
  · rcases hf with f | f | f
    · have h1 := hs.2.2.1 f
      omega
    · have h2 := hs.2.2.2.1 f
      omega
    · have h2 := hs.2.2.2.2 f.1
      omega
  · have heq := (hs.2.1 hf).2.2.1
    omega

theorem updStats_phase (s : PointState) (code : ℕ) (s' : PointState) (n : ℕ)
    (h : updatedCodeStatistics s code = some s') (hp : PhaseInv n s) :
    PhaseInv (n + 1) s' := by
  have hs := updStats_some_spec s code s' h
  rcases hp with ⟨h0, hcnt, hle⟩ | ⟨h1, hcnt, hle⟩ | ⟨h2, hge⟩
  · by_cases hgt : 5 < s.commandsSentSinceLastChange + 1
    · have hfire : FiresAdapt s := Or.inl ⟨h0, hgt⟩
      obtain ⟨hc0, _, _⟩ := hs.1 hfire
      have hst := hs.2.2.1 ⟨h0, hgt⟩
      exact Or.inr (Or.inl ⟨hst, by omega, by omega⟩)
    · have hnf : ¬ FiresAdapt s := by
        rintro (⟨a, b⟩ | ⟨a, b⟩ | ⟨a, b⟩) <;> omega
      obtain ⟨hcnt', hmode, hst, _⟩ := hs.2.1 hnf
      exact Or.inl ⟨by omega, by omega, by omega⟩
  · by_cases hgt : 20 < s.commandsSentSinceLastChange + 1
    · have hst := hs.2.2.2.1 ⟨h1, hgt⟩
      exact Or.inr (Or.inr ⟨hst, by omega⟩)
    · have hnf : ¬ FiresAdapt s := by
        rintro (⟨a, b⟩ | ⟨a, b⟩ | ⟨a, b⟩) <;> omega
      obtain ⟨hcnt', hmode, hst, _⟩ := hs.2.1 hnf
      exact Or.inr (Or.inl ⟨by omega, by omega, by omega⟩)
  · have hst := hs.2.2.2.2 h2
    exact Or.inr (Or.inr ⟨hst, by omega⟩)

theorem applyOp_updStats (s : PointState) (op : Op) (s' : PointState)
    (h : applyOp s op = some s') : ∃ code, updatedCodeStatistics s code = some s' := by
  cases op with
  | write c =>
    simp only [applyOp, WriteCode] at h
    rcases Option.map_eq_some'.mp h with ⟨p, hp, hps⟩
    rcases Option.bind_eq_some.mp hp with ⟨bits, hbits, hmap⟩
    rcases Option.map_eq_some'.mp hmap with ⟨s1, hs1, heq⟩
    refine ⟨c.val, ?_⟩
    rw [hs1]
    subst heq
    subst hps
    rfl
  | read stream =>
    simp only [applyOp, ReadCode] at h
    rcases Option.map_eq_some'.mp h with ⟨p, hp, hps⟩
    rcases Option.bind_eq_some.mp hp with ⟨q, hq, hbind⟩
    rcases Option.bind_eq_some.mp hbind with ⟨s1, hs1, heq⟩
    refine ⟨q.1, ?_⟩
    rw [hs1]
    injection heq with heq
    subst heq
    subst hps
    rfl

theorem runOps_phase (ops : List Op) : ∀ n s s', PhaseInv n s →
    runOps s ops = some s' → PhaseInv (n + ops.length) s' := by
  induction ops with
  | nil =>
    intro n s s' hp h
    simp only [runOps] at h
    injection h with h
    subst h
    simpa using hp
  | cons op rest ih =>
    intro n s s' hp h
    simp only [runOps] at h
    rcases Option.bind_eq_some.mp h with ⟨s1, h1, hrest⟩
    obtain ⟨code, hcode⟩ := applyOp_updStats s op s1 h1
    have hp1 := updStats_phase s code s1 n hcode hp
    have hres := ih (n + 1) s1 s' hp1 hrest
    have harr : n + (op :: rest).length = n + 1 + rest.length := by
      simp [List.length_cons]
      omega
    rw [harr]
    exact hres

theorem phase_fresh : PhaseInv 0 newPointMetadata :=
  Or.inl ⟨rfl, rfl, by omega⟩

/-- C2 (amended): `startupMode` never decreases across a
`WriteCode`/`ReadCode` operation and on every run from a fresh state it
stays in `{0, 1, 2}`, reaching its saturation value 2 from the 27th
coded symbol on (it never reaches 3). -/
theorem c2_startup_monotone : StartupSpec := by
  constructor
  · intro s op s' h
    obtain ⟨code, hcode⟩ := applyOp_updStats s op s' h
    exact updStats_startup_mono s code s' hcode
  · intro ops s' h
    have hp := runOps_phase ops 0 newPointMetadata s' phase_fresh h
    constructor
    · rcases hp with ⟨h0, _, _⟩ | ⟨h1, _, _⟩ | ⟨h2, _⟩ <;> omega
    · intro hlen
      rcases hp with ⟨h0, hc, hle⟩ | ⟨h1, hc, hle⟩ | ⟨h2, hge⟩ <;> omega

/-- C2 witness: the empty run from fresh satisfies the bound and the
(vacuous at length 0) saturation clause. -/
theorem c2_startup_monotone_witness :
    newPointMetadata.startupMode ≤ 2 ∧
      (27 ≤ ([] : List Op).length → newPointMetadata.startupMode = 2) :=
  c2_startup_monotone.2 [] newPointMetadata rfl

/-- C2 counterexample: no run of coder operations from a fresh state
ever reaches `startupMode = 3`, refuting the claim that `startupMode`
eventually reaches (saturates at) 3. -/
theorem c2_counterexample :
    ¬ ∃ ops s', runOps newPointMetadata ops = some s' ∧ s'.startupMode = 3 := by
  rintro ⟨ops, s', hrun, h3⟩
  have hp := runOps_phase ops 0 newPointMetadata s' phase_fresh hrun
  rcases hp with ⟨h0, _, _⟩ | ⟨h1, _, _⟩ | ⟨h2, _⟩ <;> omega

/-- C1 (amended): after each coded symbol the counter and the coded
symbol's histogram entry are bumped, then adaptation fires per the
code's schedule: at `startupMode` 0 (counter > 5) and 1 (counter > 20)
the mode is bumped and adaptation runs; at `startupMode` 2
(counter > 100) adaptation runs without bumping, so `startupMode`
never exceeds 2 through this path; no branch fires at
`startupMode ≥ 3`. -/
theorem c1_schedule (s : PointState) (code : Fin 32) (hb : ByteStats s) : UpdSpec s code := by
  obtain ⟨s', hs'⟩ := updStats_isSome s code.val code.isLt hb
  have hspec := updStats_some_spec s code.val s' hs'
  refine ⟨s', hs', hspec.1, ?_, ?_⟩
  · intro hnf
    obtain ⟨hcnt, hmode, hst, hcc, hstats⟩ := hspec.2.1 hnf
    exact ⟨hcnt, hstats, hmode⟩
  · by_cases hc0 : s.startupMode = 0 ∧ 5 < s.commandsSentSinceLastChange + 1
    · rw [if_pos hc0]
      exact hspec.2.2.1 hc0
    · rw [if_neg hc0]
      by_cases hc1 : s.startupMode = 1 ∧ 20 < s.commandsSentSinceLastChange + 1
      · rw [if_pos hc1]
        exact hspec.2.2.2.1 hc1
      · rw [if_neg hc1]
        by_cases hc2 : s.startupMode = 2 ∧ 100 < s.commandsSentSinceLastChange + 1
        · have h2 := hspec.2.2.2.2 hc2.1
          omega
        · have hnf : ¬ FiresAdapt s := by
            rintro (f | f | f)
            · exact absurd f hc0
            · exact absurd f hc1
            · exact absurd f hc2
          exact (hspec.2.1 hnf).2.2.1

/-- C1 witness: coding symbol 5 on the fresh state. -/
theorem c1_schedule_witness : UpdSpec newPointMetadata fin5 :=
  c1_schedule newPointMetadata fin5 byteStats_fresh

/-- C1 counterexample: at `startupMode = 2` with the counter crossing
100 the code adapts but does not bump `startupMode` (the claim says it
is bumped), and at `startupMode = 3` with the counter far over 100 no
adaptation runs at all (the counter keeps growing instead of
resetting). -/
theorem c1_counterexample :
    (updatedCodeStatistics cexStartup2 0).map PointState.startupMode = some 2 ∧
    (updatedCodeStatistics cexStartup3 0).map PointState.commandsSentSinceLastChange =
      some 201 := by
  constructor
  · rfl
  · rfl

theorem bit_split (v n : ℕ) :
    (cond (v.testBit n) 1 0) * 2 ^ n + v % 2 ^ n = v % 2 ^ (n + 1) := by
  have hm : v % 2 ^ (n + 1) = v % 2 ^ n + 2 ^ n * (v / 2 ^ n % 2) := by
    rw [pow_succ, Nat.mod_mul]
  rw [hm, Nat.testBit_to_div_mod]
  rcases Nat.mod_two_eq_zero_or_one (v / 2 ^ n) with h | h <;>
    rw [h] <;> norm_num [Nat.add_comm, Nat.mul_comm]

theorem readBitsN_bitsOf (n v : ℕ) (rest : List Bool) :
    readBitsN n (bitsOf v n ++ rest) = some (v % 2 ^ n, rest) := by
  induction n with
  | zero => simp [bitsOf, readBitsN, Nat.mod_one]
  | succ n ih =>
    simp only [bitsOf, List.cons_append, List.append_eq, readBitsN, ih, Option.map_some']
    rw [bit_split]

theorem readBits5_bitsOf (c : ℕ) (hc : c < 32) (rest : List Bool) :
    readBitsN 5 (bitsOf c 5 ++ rest) = some (c, rest) := by
  rw [readBitsN_bitsOf]
  congr 1
  exact congrArg (fun x => (x, rest)) (Nat.mod_eq_of_lt hc)

theorem bitsOf_succ_of_lt (v n : ℕ) (h : v < 2 ^ n) :
    bitsOf v (n + 1) = false :: bitsOf v n := by
  rw [bitsOf, Nat.testBit_eq_false_of_lt h]

theorem bitsOf_six (c : ℕ) (hc : c < 32) : bitsOf c 6 = false :: bitsOf c 5 :=
  bitsOf_succ_of_lt c 5 (by norm_num; omega)

theorem bitsOf_seven (c : ℕ) (hc : c < 32) : bitsOf c 7 = false :: false :: bitsOf c 5 := by
  rw [bitsOf_succ_of_lt c 6 (by norm_num; omega), bitsOf_six c hc]

theorem bitsOf_eight (c : ℕ) (hc : c < 32) :
    bitsOf c 8 = false :: false :: false :: bitsOf c 5 := by
  rw [bitsOf_succ_of_lt c 7 (by norm_num; omega), bitsOf_seven c hc]

/-- C6: `WriteCode` emits exactly the mode's prefix template: mode 1 is
5 raw bits; mode 2 is `1` on the hot slot, else `0` + 5 raw bits;
mode 3 is `1` / `01` on its hot slots, else `00` + 5 raw bits; mode 4 is
`1` / `01` / `001`, else `000` + 5 raw bits. -/
theorem c6_write_spelling (s : PointState) (c : Fin 32) (hb : ByteStats s) :
    WriteSpellSpec s c := by
  obtain ⟨s', hs'⟩ := updStats_isSome s c.val c.isLt hb
  refine ⟨?_, ?_, ?_, ?_, ?_, ?_, ?_, ?_, ?_, ?_⟩
  · intro h1
    simp [WriteCode, writeBitsFor, h1, hs']
  · intro h1 h2
    simp [WriteCode, writeBitsFor, h1, h2.symm, hs']
    rfl
  · intro h1 h2
    simp [WriteCode, writeBitsFor, h1, if_neg h2, hs']
    exact bitsOf_six c.val c.isLt
  · intro h1 h2
    simp [WriteCode, writeBitsFor, h1, h2.symm, hs']
    rfl
  · intro h1 h2 h3
    simp [WriteCode, writeBitsFor, h1, if_neg h2, h3.symm, hs']
    rfl
  · intro h1 h2 h3
    simp [WriteCode, writeBitsFor, h1, if_neg h2, if_neg h3, hs']
    exact bitsOf_seven c.val c.isLt
  · intro h1 h2
    simp [WriteCode, writeBitsFor, h1, h2.symm, hs']
    rfl
  · intro h1 h2 h3
    simp [WriteCode, writeBitsFor, h1, if_neg h2, h3.symm, hs']
    rfl
  · intro h1 h2 h3 h4
    simp [WriteCode, writeBitsFor, h1, if_neg h2, if_neg h3, h4.symm, hs']
    rfl
  · intro h1 h2 h3 h4
    simp [WriteCode, writeBitsFor, h1, if_neg h2, if_neg h3, if_neg h4, hs']
    exact bitsOf_eight c.val c.isLt

/-- C6 witness: spelling symbol 20 (`Value1`) on the fresh state
(mode 4, first hot slot). -/
theorem c6_write_spelling_witness : WriteSpellSpec newPointMetadata fin20 :=
  c6_write_spelling newPointMetadata fin20 byteStats_fresh

/-- C7: the state built by `newPointMetadata` starts in mode 4 with its
three hot slots set to the `Value1`, `Value2` and `Value3` symbols,
which are the symbol indices 20, 21 and 22. -/
theorem c7_initial_mode :
    newPointMetadata.mode = 4 ∧
    newPointMetadata.mode41 = codeWords.Value1 ∧
    newPointMetadata.mode401 = codeWords.Value2 ∧
    newPointMetadata.mode4001 = codeWords.Value3 ∧
    codeWords.Value1 = 20 ∧ codeWords.Value2 = 21 ∧ codeWords.Value3 = 22 :=
  ⟨rfl, rfl, rfl, rfl, rfl, rfl, rfl⟩

theorem coderEq_eq_withPrevs (s t : PointState) (hEq : CoderEq s t) : t = withPrevs t s := by
  obtain ⟨e1, e2, e3, e4, e5, e6, e7, e8, e9, e10⟩ := hEq
  unfold withPrevs
  rw [e1, e2, e3, e4, e5, e6, e7, e8, e9, e10]

theorem adapt_withPrev (t s : PointState) :
    adaptCommands (withPrevs t s) = (adaptCommands s).map (withPrevs t) := by
  simp only [adaptCommands, withPrevs]
  split_ifs <;> rfl

theorem updStats_withPrev (t s : PointState) (code : ℕ) :
    updatedCodeStatistics (withPrevs t s) code =
      (updatedCodeStatistics s code).map (withPrevs t) := by
  by_cases hc : code < 32
  · simp only [updatedCodeStatistics, withPrevs]
    rw [dif_pos hc, dif_pos hc]
    split_ifs
    · exact adapt_withPrev t
        { s with commandsSentSinceLastChange := s.commandsSentSinceLastChange + 1,
                 commandStats := updateStats s.commandStats ⟨code, hc⟩,
                 startupMode := s.startupMode + 1 }
    · exact adapt_withPrev t
        { s with commandsSentSinceLastChange := s.commandsSentSinceLastChange + 1,
                 commandStats := updateStats s.commandStats ⟨code, hc⟩,
                 startupMode := s.startupMode + 1 }
    · exact adapt_withPrev t
        { s with commandsSentSinceLastChange := s.commandsSentSinceLastChange + 1,
                 commandStats := updateStats s.commandStats ⟨code, hc⟩ }
    · rfl
  · simp only [updatedCodeStatistics]
    rw [dif_neg hc, dif_neg hc]
    rfl

theorem readStep_withPrev (t s : PointState) (stream : List Bool) :
    readStep (withPrevs t s) stream = readStep s stream := by
  simp only [readStep, withPrevs]

theorem readCode_withPrev (t s : PointState) (stream : List Bool) :
    ReadCode (withPrevs t s) stream =
      (ReadCode s stream).map (fun p => (withPrevs t p.1, p.2)) := by
  simp only [ReadCode, readStep_withPrev]
  cases hq : readStep s stream with
  | none => rfl
  | some p =>
    simp only [Option.some_bind]
    rw [updStats_withPrev]
    cases hu : updatedCodeStatistics s p.1 with
    | none => rfl
    | some s1 => rfl

theorem updStats_congr (s t : PointState) (code : ℕ) (s' : PointState) (hEq : CoderEq s t)
    (h : updatedCodeStatistics s code = some s') :
    ∃ t', updatedCodeStatistics t code = some t' ∧ CoderEq s' t' := by
  refine ⟨withPrevs t s', ?_, rfl, rfl, rfl, rfl, rfl, rfl, rfl, rfl, rfl, rfl⟩
  conv_lhs => rw [coderEq_eq_withPrevs s t hEq]
  rw [updStats_withPrev, h]
  rfl

theorem readCode_congr (s t : PointState) (stream : List Bool) (s' : PointState) (code : ℕ)
    (rest : List Bool) (hEq : CoderEq s t)
    (h : ReadCode s stream = some (s', code, rest)) :
    ∃ t', ReadCode t stream = some (t', code, rest) ∧ CoderEq s' t' := by
  refine ⟨withPrevs t s', ?_, rfl, rfl, rfl, rfl, rfl, rfl, rfl, rfl, rfl, rfl⟩
  conv_lhs => rw [coderEq_eq_withPrevs s t hEq]
  rw [readCode_withPrev, h]
  rfl

theorem readStep_writeBits (s : PointState) (c : Fin 32) (bits : List Bool)
    (h : writeBitsFor s c = some bits) : readStep s bits = some (c.val, []) := by
  have hread5 : readBitsN 5 (bitsOf c.val 5) = some (c.val, []) := by
    have hx := readBits5_bitsOf c.val c.isLt []
    rwa [List.append_nil] at hx
  have hb1 : bitsOf 1 1 = [true] := rfl
  have hb2 : bitsOf 1 2 = [false, true] := rfl
  have hb3 : bitsOf 1 3 = [false, false, true] := rfl
  unfold writeBitsFor at h
  by_cases m1 : s.mode = 1
  · rw [if_pos m1] at h
    injection h with h
    subst h
    unfold readStep
    rw [if_pos m1]
    exact hread5
  · rw [if_neg m1] at h
    by_cases m2 : s.mode = 2
    · rw [if_pos m2] at h
      injection h with h
      subst h
      unfold readStep
      rw [if_neg m1, if_pos m2]
      by_cases hc1 : c.val = s.mode21
      · rw [if_pos hc1, hb1]
        simp [hc1]
      · rw [if_neg hc1, bitsOf_six c.val c.isLt]
        simp [hread5]
    · rw [if_neg m2] at h
      by_cases m3 : s.mode = 3
      · rw [if_pos m3] at h
        injection h with h
        subst h
        unfold readStep
        rw [if_neg m1, if_neg m2, if_pos m3]
        by_cases hc1 : c.val = s.mode31
        · rw [if_pos hc1, hb1]
          simp [hc1]
        · rw [if_neg hc1]
          by_cases hc2 : c.val = s.mode301
          · rw [if_pos hc2, hb2]
            simp [hc2]
          · rw [if_neg hc2, bitsOf_seven c.val c.isLt]
            simp [hread5]
      · rw [if_neg m3] at h
        by_cases m4 : s.mode = 4
        · rw [if_pos m4] at h
          injection h with h
          subst h
          unfold readStep
          rw [if_neg m1, if_neg m2, if_neg m3, if_pos m4]
          by_cases hc1 : c.val = s.mode41
          · rw [if_pos hc1, hb1]
            simp [hc1]
          · rw [if_neg hc1]
            by_cases hc2 : c.val = s.mode401
            · rw [if_pos hc2, hb2]
              simp [hc2]
            · rw [if_neg hc2]
              by_cases hc3 : c.val = s.mode4001
              · rw [if_pos hc3, hb3]
                simp [hc3]
              · rw [if_neg hc3, bitsOf_eight c.val c.isLt]
                simp [hread5]
        · rw [if_neg m4] at h
          exact Option.noConfusion h

theorem writeRead_roundtrip (s : PointState) (c : Fin 32) (s' : PointState) (bits : List Bool)
    (h : WriteCode s c = some (s', bits)) : ReadCode s bits = some (s', c.val, []) := by
  simp only [WriteCode] at h
  rcases Option.bind_eq_some.mp h with ⟨B, hB, hmap⟩
  rcases Option.map_eq_some'.mp hmap with ⟨s1, hs1, heq⟩
  rw [Prod.mk.injEq] at heq
  obtain ⟨h1, h2⟩ := heq
  subst h1
  subst h2
  have hstep := readStep_writeBits s c B hB
  simp only [ReadCode, hstep, Option.some_bind]
  rw [hs1, Option.some_bind]

/-- C4: for coder-equal encoder and decoder states (identical mode,
hot-slot, histogram, counter and startup fields), decoding exactly the
bits `WriteCode` emits for a symbol returns that symbol, consumes the
whole sequence, and leaves the two states coder-equal again. -/
theorem c4_write_read_agree (s t : PointState) (c : Fin 32) (s' : PointState)
    (bits : List Bool) (hEq : CoderEq s t) (h : WriteCode s c = some (s', bits)) :
    ReadMatches t bits s' c.val :=
  readCode_congr s t bits s' c.val [] hEq (writeRead_roundtrip s c s' bits h)

/-- C4 witness: encoding symbol 5 on a fresh state and decoding its
8 emitted bits on a twin state that differs in a prediction field. -/
theorem c4_write_read_agree_witness : ReadMatches coderTwin (bitsOf 5 8) c4Post 5 :=
  c4_write_read_agree newPointMetadata coderTwin fin5 c4Post (bitsOf 5 8)
    ⟨rfl, rfl, rfl, rfl, rfl, rfl, rfl, rfl, rfl, rfl⟩ rfl

end Tssc

namespace Tssc

/-- C5 (amended): every slot of the top-3 scan whose selected count is
positive holds the lexicographically-least count-maximal index among
the candidates excluding the higher-ranked codes, and all three slots
are so characterized whenever three distinct symbols have positive
counts; zero-count trailing slots are scan leftovers and may repeat a
higher-ranked code. -/
theorem c5_top3_selection (f : Fin 32 → ℕ) : SelSpec f := by
  obtain ⟨h21, h32, hsum, htot, hd1, hd2, hd3, hm1, hm2, hm3⟩ := selScan_inv f
  refine ⟨?_, ?_, ?_, ?_⟩
  · intro hp
    obtain ⟨hcn, hch, hleast⟩ := hm1 hp
    exact ⟨hcn, hch, hd1, hleast⟩
  · intro hp
    obtain ⟨hcn, hch, hne, hleast⟩ := hm2 hp
    exact ⟨hcn, hne, hch, hd2, hleast⟩
  · intro hp
    obtain ⟨hcn, hch, hne1, hne2, hleast⟩ := hm3 hp
    exact ⟨hcn, hne1, hne2, hch, hd3, hleast⟩
  · intro i j k hi hj hk hij hik hjk hpi hpj hpk
    by_contra h0
    have h3 : (selScan f).count3 = 0 := by omega
    have hex : ∃ x, x < 32 ∧ 0 < statsFun f x ∧ x ≠ (selScan f).code1 ∧
        x ≠ (selScan f).code2 := by
      by_cases e1 : i = (selScan f).code1
      · by_cases e2 : j = (selScan f).code2
        · exact ⟨k, hk, hpk, by omega, by omega⟩
        · by_cases e3 : j = (selScan f).code1
          · exact absurd (e1.trans e3.symm) hij
          · exact ⟨j, hj, hpj, e3, e2⟩
      · by_cases e2 : i = (selScan f).code2
        · by_cases e3 : j = (selScan f).code1
          · exact ⟨k, hk, hpk, by omega, by omega⟩
          · exact ⟨j, hj, hpj, e3, by omega⟩
        · exact ⟨i, hi, hpi, e1, e2⟩
    obtain ⟨x, hx32, hxp, hx1, hx2⟩ := hex
    have hxd := hd3 x hx32 hx1 hx2
    omega

/-- C5 witness: a histogram with three positive symbols, whose third
slot the theorem characterizes (its count is positive). -/
theorem c5_top3_selection_witness : SelSpec histThree ∧ 0 < (selScan histThree).count3 :=
  ⟨c5_top3_selection histThree, by decide⟩

/-- C5 counterexample: for the histogram with six hits of symbol 0 and
nothing else (exactly the histogram of a fresh point that coded symbol
0 six times), the scan selects `(0, 0, 1)` — the rank-2 slot repeats
the rank-1 code — while the claimed lexicographically-least
count-maximal choices are `(0, 1, 2)`. -/
theorem c5_counterexample :
    ((selScan histOneHot).code1, (selScan histOneHot).code2, (selScan histOneHot).code3) =
      (0, 0, 1) ∧
    specTop3 histOneHot = (0, 1, 2) ∧
    ((selScan histOneHot).code1, (selScan histOneHot).code2, (selScan histOneHot).code3) ≠
      specTop3 histOneHot ∧
    (selScan histOneHot).code2 = (selScan histOneHot).code1 := by
  exact ⟨by decide, by decide, by decide, by decide⟩

end Tssc

namespace GuidSet

/-- C10: `IsProperSupersetOf` returns true whenever the receiving set is
empty — for every argument slice, including the empty one — so the
empty set is reported as a proper superset of the empty set. -/
theorem c10_empty_proper_superset :
    (∀ other : List ℕ, IsProperSupersetOf ∅ other = true) ∧
    IsProperSupersetOf ∅ [] = true := by
  constructor
  · intro other
    unfold IsProperSupersetOf IsEmpty
    simp
  · unfold IsProperSupersetOf IsEmpty
    simp

end GuidSet

namespace Metadata

/-- C9: reading `DataRow.Value` at any column marked computed returns
the nil value with no error (and no panic), regardless of the column's
declared type and of the row's stored values. -/
theorem c9_computed_value (V : Type) (dr : DataRow V) (idx : ℕ) (col : DataColumn)
    (hcol : dr.columns.get? idx = some col) (hcomp : col.computed = true) :
    Value dr idx = RowRead.okRes none := by
  unfold Value validateColumnType
  rw [hcol]
  norm_num
  simp [hcomp, getComputedValue]

/-- C9 witness: a one-column row whose column is computed, with a stored
value 42 that is ignored. -/
theorem c9_computed_value_witness : Value sampleRow 0 = RowRead.okRes none :=
  c9_computed_value ℕ sampleRow 0 compColumn rfl rfl

end Metadata
